import Mathlib

/-
  Verification development for the wdio-vscode-service page-object layer.

  Each definition below is a shallow embedding of one method of the source
  (src/pageobjects/...): the live DOM is modelled explicitly as data (lists of
  elements carrying the attributes the method reads), driver reads that can
  fail are modelled with Except, and methods become pure functions from the
  DOM model to the value the TypeScript method resolves to (plus, where a
  claim needs it, a trace of the driver interactions performed).
-/

namespace WdioVSCode

/- ===================== NotificationsCenter.ts ===================== -/

/-- The NotificationType enum from src/types (Info, Warning, Error, Any). -/
inductive NotificationType
  | Info
  | Warning
  | Error
  | Any
deriving DecidableEq

/-- One rendered notification row; `typ` is the value CenterNotification.getType
    reads from the row element, `message` its text. -/
structure NotificationRow where
  typ : NotificationType
  message : String
deriving DecidableEq

/-- NotificationsCenter.getNotifications (NotificationsCenter.ts lines 38-49):
    iterates the rendered rows in DOM order and keeps a row when the requested
    type is NotificationType.Any or the row's own type equals the request. -/
def getNotifications (t : NotificationType) : List NotificationRow → List NotificationRow
  | [] => []
  | r :: rest =>
    if t = NotificationType.Any ∨ r.typ = t then r :: getNotifications t rest
    else getNotifications t rest

/- ===================== ModalDialog.ts ===================== -/

/-- A dialog button element; `title` is its title attribute. -/
structure Button where
  title : String
deriving DecidableEq

/-- JavaScript Array.prototype.findIndex: the index of the first element
    satisfying the test, counted from `start`, or -1 when none does. -/
def findIndexFrom (p : Button → Bool) : List Button → Nat → Int
  | [], _ => -1
  | b :: rest, start => if p b then (start : Int) else findIndexFrom p rest (start + 1)

/-- ModalDialog.pushButton (ModalDialog.ts lines 38-45): reads every button's
    title attribute, takes findIndex of the first title equal to the argument,
    and clicks buttons[index] only when index > -1.  The model returns the
    index of the clicked button, or none when no click happens. -/
def pushButton (title : String) (buttons : List Button) : Option Nat :=
  let index := findIndexFrom (fun b => decide (b.title = title)) buttons 0
  if index > -1 then some index.toNat else none

/- ===================== ScmView (src/unnamed/part_000) ===================== -/

/-- A rendered monaco tree row as the SCM view reads it: its data-index and
    aria-level attributes, both numeric after the + coercion in the source. -/
structure TreeRow where
  dataIndex : Int
  ariaLevel : Int
deriving DecidableEq

/-- A staged/unstaged header row as MultiScmProvider.getChangeCount reads it:
    its data-index attribute and the numeric text of its change-count badge. -/
structure ScmHeaderRow where
  dataIndex : Int
  changeCount : Int
deriving DecidableEq

/-- The itemLevel locator: the rendered rows whose aria-level attribute equals
    the requested depth, in DOM order. -/
def itemLevel (depth : Int) (rows : List TreeRow) : List TreeRow :=
  rows.filter (fun r => decide (r.ariaLevel = depth))

/-- SingleScmProvider.getChanges (part_000 lines 72-96): when the change count
    is positive, reads the header's data-index and aria-level, queries the rows
    one level deeper, and keeps those whose data-index lies in
    (startIndex, startIndex + count]; otherwise resolves to the empty list. -/
def SingleScmProvider.getChanges (count : Int) (header : TreeRow) (rows : List TreeRow) :
    List TreeRow :=
  if count > 0 then
    (itemLevel (header.ariaLevel + 1) rows).filter
      (fun it => decide (header.dataIndex < it.dataIndex) &&
        decide (it.dataIndex ≤ header.dataIndex + count))
  else []

/-- The header-selection loop of MultiScmProvider.getChanges (part_000 lines
    141-145): iterates the header rows and overwrites `header` on every row
    whose data-index exceeds the provider's, so the last such row wins. -/
def lastAboveAux (providerIndex : Int) (acc : Option TreeRow) :
    List TreeRow → Option TreeRow
  | [] => acc
  | r :: rest =>
    lastAboveAux providerIndex
      (if r.dataIndex > providerIndex then some r else acc) rest

/-- MultiScmProvider.getChanges (part_000 lines 130-166): when the change count
    is positive, selects the last staged/unstaged header row whose data-index
    exceeds the provider element's data-index (returning [] when there is
    none), then filters the rows one level deeper by the same
    (startIndex, startIndex + count] window as the single-provider variant. -/
def MultiScmProvider.getChanges (count : Int) (providerIndex : Int)
    (headers : List TreeRow) (rows : List TreeRow) : List TreeRow :=
  if count > 0 then
    match lastAboveAux providerIndex none headers with
    | none => []
    | some header =>
      (itemLevel (header.ariaLevel + 1) rows).filter
        (fun it => decide (header.dataIndex < it.dataIndex) &&
          decide (it.dataIndex ≤ header.dataIndex + count))
  else []

/-- MultiScmProvider.getChangeCount (part_000 lines 168-180): iterates the
    header rows for the requested list; on the first row whose data-index
    exceeds the provider's it returns the numeric change-count text of rows[0]
    (the first row of the whole list, not the row that satisfied the test);
    when the loop finishes without such a row it returns 0.  `first` carries
    rows[0] of the full list while the loop walks its tail. -/
def getChangeCountGo (first : Option ScmHeaderRow) (providerIndex : Int) :
    List ScmHeaderRow → Int
  | [] => 0
  | r :: rest =>
    if r.dataIndex > providerIndex then
      match first with
      | some r0 => r0.changeCount
      | none => 0
    else getChangeCountGo first providerIndex rest

/-- MultiScmProvider.getChangeCount, entry point: the loop runs over the full
    row list, and rows[0] is its head. -/
def MultiScmProvider.getChangeCount (providerIndex : Int) (rows : List ScmHeaderRow) : Int :=
  getChangeCountGo rows.head? providerIndex rows

/-- An SCM provider page object as NewScmView.getProviders constructs it;
    elements are identified by opaque ids. -/
inductive ScmProviderModel
  | single (elem : Nat)
  | multi (elem : Nat)
deriving DecidableEq

/-- The element queries NewScmView.getProviders performs, as data: the SCM
    input fields, the elements of the multi-provider container locator, the
    multi-provider items, and the single-provider element. -/
structure ScmViewDom where
  inputFields : List Nat
  multiScmProviders : List Nat
  multiProviderItems : List Nat
  singleScmProvider : Nat

/-- NewScmView.getProviders (part_000 lines 13-31): [] when there is no input
    field; one SingleScmProvider when there is exactly one input field and the
    multi-provider container locator matches nothing; otherwise one
    MultiScmProvider per multi-provider item, in DOM order. -/
def NewScmView.getProviders (dom : ScmViewDom) : List ScmProviderModel :=
  if dom.inputFields.length < 1 then []
  else if dom.inputFields.length = 1 ∧ dom.multiScmProviders.length < 1 then
    [ScmProviderModel.single dom.singleScmProvider]
  else dom.multiProviderItems.map ScmProviderModel.multi

/- ===================== Input.ts ===================== -/

/-- A driver element read that can fail (element not found / not readable). -/
inductive DriverError
  | noSuchElement
  | notInteractable
deriving DecidableEq

/-- QuickPickItem.getDescription (Input.ts lines 237-243): tries to read the
    description element's text and converts any failure to undefined. -/
def QuickPickItem.getDescription (readResult : Except DriverError String) : Option String :=
  match readResult with
  | Except.ok text => some text
  | Except.error _ => none

/-- A back-button element of the input title bar; `enabled` is isEnabled(). -/
structure BackButton where
  enabled : Bool
deriving DecidableEq

/-- A title-bar element of the input box: whether it is displayed and the
    back-button elements found under it, in DOM order. -/
structure TitleBarElem where
  displayed : Bool
  backButtons : List BackButton
deriving DecidableEq

/-- Input.back (Input.ts lines 180-190): when a title bar exists, is displayed,
    and its first back button exists and is enabled, clicks it and resolves to
    true; in every other case it resolves to false. -/
def Input.back (titleBars : List TitleBarElem) : Bool :=
  match titleBars with
  | [] => false
  | tb :: _ =>
    if tb.displayed then
      match tb.backButtons with
      | [] => false
      | b :: _ => if b.enabled then true else false
    else false

/-- A select-all checkbox element; `selected` is isSelected(). -/
structure QuickPickCheckbox where
  selected : Bool
deriving DecidableEq

/-- Outcome of Input.toggleAllQuickPicks: the guard's silent early return, a
    normal completion that performed some number of clicks, or the runtime
    failure of reading element 0 of an empty checkbox list. -/
inductive ToggleOutcome
  | noAction
  | clicks (n : Nat)
  | indexError
deriving DecidableEq

/-- Input.toggleAllQuickPicks (Input.ts lines 113-124): guards on
    checkboxes.length < 0 (array lengths are never negative), then reads
    checkboxes[0] — a runtime error when the list is empty — clicks it when it
    is not selected, and clicks it again when state is false. -/
def toggleAllQuickPicks (state : Bool) (checkboxes : List QuickPickCheckbox) : ToggleOutcome :=
  if checkboxes.length < 0 then ToggleOutcome.noAction
  else
    match checkboxes with
    | [] => ToggleOutcome.indexError
    | c :: _ =>
      ToggleOutcome.clicks
        ((if c.selected then 0 else 1) + (if state then 0 else 1))

/-- A rendered quick-pick row: the construction-time index the wrapper stores,
    the label text, and the aria-posinset / aria-setsize attributes as
    getAttribute returns them (none models a null attribute). -/
structure QuickPick where
  index : Nat
  label : String
  posinset : Option String
  setsize : Option String
deriving DecidableEq

/-- One rendered state of the quick-pick list: the rows currently in the DOM in
    order, and whether the sentinel last-row element is present. -/
structure QuickPickPage where
  picks : List QuickPick
  lastRowPresent : Bool
deriving DecidableEq

/-- The two search keys findQuickPick accepts: a string (substring match on the
    label, JavaScript indexOf > -1) or a numeric index. -/
inductive SearchKey
  | byText (text : String)
  | byIndex (index : Nat)
deriving DecidableEq

/-- The per-pick match test of findQuickPick (Input.ts lines 148-155): for a
    string key, label.indexOf(key) > -1, i.e. the key occurs in the label
    (splitOn yields more than one piece, or the key is empty); for a numeric
    key, equality with the wrapper's stored index. -/
def pickMatches (key : SearchKey) (pick : QuickPick) : Bool :=
  match key with
  | SearchKey.byText t => decide ((pick.label.splitOn t).length > 1) || decide (t = "")
  | SearchKey.byIndex i => decide (i = pick.index)

/-- The inner for-loop of findQuickPick over one page (Input.ts lines 141-156):
    per pick, endReached becomes true when the sentinel last-row element is in
    the DOM, or else when the pick's aria-posinset equals its aria-setsize
    (null equals null included); then the pick is returned when it matches.
    Returns the final endReached flag and the first matching pick, if any. -/
def scanPicksGo (key : SearchKey) (lastRow : Bool) (endReached : Bool) :
    List QuickPick → Bool × Option QuickPick
  | [] => (endReached, none)
  | p :: rest =>
    let e2 :=
      if lastRow then true
      else if decide (p.posinset = p.setsize) then true
      else endReached
    if pickMatches key p then (e2, some p)
    else scanPicksGo key lastRow e2 rest

/-- The endReached accumulator of the for-loop in isolation, for reasoning. -/
def pageEndFold (lastRow : Bool) (endReached : Bool) : List QuickPick → Bool
  | [] => endReached
  | p :: rest =>
    pageEndFold lastRow
      (if lastRow then true
       else if decide (p.posinset = p.setsize) then true
       else endReached) rest

/-- The end-of-list condition of one page in closed form: some pick was
    scanned, and the sentinel last-row element is present or some pick's
    aria-posinset equals its aria-setsize.  (With an empty pick list the
    for-loop body never runs, so endReached stays false.) -/
def pageEndReached (pg : QuickPickPage) : Bool :=
  !pg.picks.isEmpty &&
    (pg.lastRowPresent || pg.picks.any (fun p => decide (p.posinset = p.setsize)))

/-- What one while-iteration of findQuickPick decides on a page: some (some
    pick) = return this pick, some none = end reached with no match (resolve
    to undefined), none = no match and end not reached (press PageDown and
    continue). -/
def pageOutcome (key : SearchKey) (pg : QuickPickPage) : Option (Option QuickPick) :=
  match pg.picks.find? (pickMatches key) with
  | some pick => some (some pick)
  | none => if pageEndReached pg then some none else none

/-- The while-loop of Input.findQuickPick (Input.ts lines 139-161) over a DOM
    that renders page n after n PageDown presses (the initial reset-position
    step of lines 133-136 precedes this loop and presses no PageDown).  Fuel
    bounds the number of iterations modelled: none means the loop was still
    running after `fuel` iterations; some (result, presses) means the loop
    finished with findQuickPick's result after pressing PageDown `presses`
    times, once per iteration that saw no match and no end-of-list. -/
def findQuickPickLoop (dom : Nat → QuickPickPage) (key : SearchKey) :
    Nat → Nat → Option (Option QuickPick × Nat)
  | 0, _ => none
  | Nat.succ fuel, page =>
    let pg := dom page
    let scanned := scanPicksGo key pg.lastRowPresent false pg.picks
    match scanned.snd with
    | some pick => some (some pick, 0)
    | none =>
      if scanned.fst then some (none, 0)
      else
        match findQuickPickLoop dom key fuel (page + 1) with
        | none => none
        | some (res, presses) => some (res, presses + 1)

/- ===================== QuickPickItem state sources ===================== -/

/-- The construction-time state a QuickPickItem wrapper stores (Input.ts lines
    218-225): the index passed to the constructor. -/
structure QuickPickItemState where
  index : Nat
deriving DecidableEq

/-- The live DOM as a QuickPickItem's methods read it: the label text and the
    description read result of the row element located at each index. -/
structure QuickPickItemDom where
  labelAt : Nat → String
  descriptionAt : Nat → Except DriverError String

/-- QuickPickItem.getLabel (Input.ts lines 230-232): re-reads the label element
    of the row the wrapper is bound to from the current DOM. -/
def QuickPickItem.getLabel (st : QuickPickItemState) (dom : QuickPickItemDom) : String :=
  dom.labelAt st.index

/-- QuickPickItem.getDescription against the current DOM: re-reads the
    description element and converts failure to undefined. -/
def QuickPickItem.getDescriptionFromDom (st : QuickPickItemState)
    (dom : QuickPickItemDom) : Option String :=
  QuickPickItem.getDescription (dom.descriptionAt st.index)

/-- QuickPickItem.getIndex (Input.ts lines 248-250): returns this.index, the
    value stored at construction time; it performs no DOM read. -/
def QuickPickItem.getIndex (st : QuickPickItemState) (_dom : QuickPickItemDom) : Nat :=
  st.index

/- ===================== Driver round-trip traces ===================== -/

/-- One driver round-trip, as two trace events: the command is dispatched
    (issue) and its response is received (complete). -/
inductive DriverEvent
  | issue (id : Nat)
  | complete (id : Nat)
deriving DecidableEq

/-- Round-trips in flight after one more event. -/
def inFlightStep (n : Nat) : DriverEvent → Nat
  | DriverEvent.issue _ => n + 1
  | DriverEvent.complete _ => n - 1

/-- Round-trips in flight after a whole trace. -/
def inFlightAfter (tr : List DriverEvent) : Nat :=
  tr.foldl inFlightStep 0

/-- Checks that, starting from n round-trips in flight, every prefix of the
    trace keeps at most one round-trip in flight. -/
def seqFrom (n : Nat) : List DriverEvent → Bool
  | [] => true
  | e :: rest =>
    let m := inFlightStep n e
    decide (m ≤ 1) && seqFrom m rest

/-- A trace is sequentially dispatched when no two round-trips are ever in
    flight at the same time. -/
def sequentialDispatch (tr : List DriverEvent) : Bool := seqFrom 0 tr

/-- k round-trips all dispatched before any response arrives. -/
def issuesOf : Nat → List DriverEvent
  | 0 => []
  | Nat.succ k => DriverEvent.issue (Nat.succ k) :: issuesOf k

/-- The k matching responses, arriving after the batch of dispatches. -/
def completesOf : Nat → List DriverEvent
  | 0 => []
  | Nat.succ k => DriverEvent.complete (Nat.succ k) :: completesOf k

/-- The attribute-read phase of MultiScmProvider.takeAction (part_000 lines
    106-116): actions.map(async action => action.getAttribute('title')) starts
    every getAttribute round-trip synchronously, and only then Promise.all
    awaits the responses — so all k commands are dispatched before any
    response is consumed. -/
def MultiScmProvider.takeActionTrace (numActions : Nat) : List DriverEvent :=
  issuesOf numActions ++ completesOf numActions

/-- The identical Promise.all attribute-read phase of ModalDialog.pushButton
    (ModalDialog.ts lines 38-45). -/
def ModalDialog.pushButtonTrace (numButtons : Nat) : List DriverEvent :=
  issuesOf numButtons ++ completesOf numButtons

/-- The trace of a for-of loop that awaits each round-trip before starting the
    next one (the dominant idiom elsewhere in the source, e.g. the row loop of
    NotificationsCenter.getNotifications). -/
def forLoopTrace : Nat → List DriverEvent
  | 0 => []
  | Nat.succ k =>
    DriverEvent.issue (Nat.succ k) :: DriverEvent.complete (Nat.succ k) :: forLoopTrace k

/- ===================== Concrete fixtures for witnesses ===================== -/

/-- A page whose single pick neither matches index 7 nor ends the list. -/
def qpPageA : QuickPickPage :=
  QuickPickPage.mk [QuickPick.mk 0 "alpha" (some "1") (some "9")] false

/-- The pick with stored index 7 rendered on the second page. -/
def qpPickB : QuickPick := QuickPick.mk 7 "beta" (some "2") (some "9")

/-- A page containing qpPickB. -/
def qpPageB : QuickPickPage := QuickPickPage.mk [qpPickB] false

/-- A two-page quick-pick DOM: page 0 before any PageDown, page 1 after. -/
def qpDomW : Nat → QuickPickPage := fun n => if n = 0 then qpPageA else qpPageB

/-- A QuickPickItem DOM rendering one content. -/
def qpItemDomOld : QuickPickItemDom :=
  QuickPickItemDom.mk (fun _ => "old-label") (fun _ => Except.error DriverError.noSuchElement)

/-- The same DOM after a mutation: every rendered label and description
    changed. -/
def qpItemDomNew : QuickPickItemDom :=
  QuickPickItemDom.mk (fun _ => "new-label") (fun _ => Except.ok "desc")

/-- A DOM agreeing with qpItemDomOld at index 2 only. -/
def qpItemDomOld2 : QuickPickItemDom :=
  QuickPickItemDom.mk (fun n => if n = 2 then "old-label" else "zzz")
    (fun _ => Except.error DriverError.notInteractable)

/-- An SCM view DOM with one input field and no multi-provider container. -/
def scmDomSingle : ScmViewDom := ScmViewDom.mk [10] [] [] 42

/-- An SCM view DOM with two input fields and two multi-provider items. -/
def scmDomMulti : ScmViewDom := ScmViewDom.mk [10, 11] [20] [30, 31] 42

/-- An SCM view DOM with no input field. -/
def scmDomEmpty : ScmViewDom := ScmViewDom.mk [] [20] [30] 42

/-- A header row fixture: data-index 5, aria-level 2. -/
def scmHeaderW : TreeRow := TreeRow.mk 5 2

/-- Rendered rows fixture: two rows at level 3 and one at level 2. -/
def scmRowsW : List TreeRow := [TreeRow.mk 6 3, TreeRow.mk 7 3, TreeRow.mk 6 2]

/- ===================== Theorems ===================== -/

/-- Claim C6: for every notification type t other than NotificationType.Any,
    getNotifications t resolves to exactly the notification rows whose type
    equals t in DOM order (a filter of the row list), and
    getNotifications NotificationType.Any resolves to every row. -/
theorem getNotifications_filter_spec (t : NotificationType) (rows : List NotificationRow) :
    getNotifications t rows =
      if t = NotificationType.Any then rows
      else rows.filter (fun r => decide (r.typ = t)) := by
  induction rows with
  | nil => by_cases ht : t = NotificationType.Any <;> simp [getNotifications, ht]
  | cons r rest ih =>
    by_cases ht : t = NotificationType.Any
    · subst ht
      simp only [if_pos rfl] at ih ⊢
      simp [getNotifications, ih]
    · simp only [if_neg ht] at ih ⊢
      by_cases hr : r.typ = t
      · simp [getNotifications, ht, hr, ih, List.filter_cons]
      · simp [getNotifications, ht, hr, ih, List.filter_cons]

/-- The loop of MultiScmProvider.getChangeCount in closed form: it yields the
    change count carried by `first` as soon as any row's data-index exceeds the
    provider's, and 0 otherwise. -/
theorem getChangeCountGo_closed (providerIndex : Int) (first : Option ScmHeaderRow) :
    ∀ rows : List ScmHeaderRow,
      getChangeCountGo first providerIndex rows =
        if rows.any (fun r => decide (providerIndex < r.dataIndex)) then
          (first.map ScmHeaderRow.changeCount).getD 0
        else 0 := by
  intro rows
  induction rows with
  | nil => simp [getChangeCountGo]
  | cons r rest ih =>
    by_cases h : providerIndex < r.dataIndex
    · cases first <;> simp [getChangeCountGo, h]
    · simp [getChangeCountGo, h, ih]

/-- Claim C9: whenever some staged/unstaged header row has data-index strictly
    greater than the provider element's data-index, getChangeCount returns the
    numeric change-count text of the first header row of the queried list
    (rows[0], i.e. the head), regardless of which row satisfied the
    comparison; when no row's data-index exceeds the provider's it returns 0. -/
theorem getChangeCount_first_row_spec (providerIndex : Int) (rows : List ScmHeaderRow) :
    MultiScmProvider.getChangeCount providerIndex rows =
      if rows.any (fun r => decide (providerIndex < r.dataIndex)) then
        (rows.head?.map ScmHeaderRow.changeCount).getD 0
      else 0 := by
  unfold MultiScmProvider.getChangeCount
  exact getChangeCountGo_closed providerIndex rows.head? rows

/-- Claim C10: the guard of Input.toggleAllQuickPicks tests
    checkboxes.length < 0, which no list length satisfies, so its silent
    early-return branch is unreachable; the method always goes on to read
    checkboxes[0], and on an empty checkbox list that read is out of bounds
    (a runtime error) rather than a silent no-op. -/
theorem toggleAllQuickPicks_guard_spec (state : Bool) (cbs : List QuickPickCheckbox)
    (c : QuickPickCheckbox) (rest : List QuickPickCheckbox) :
    decide (cbs.length < 0) = false ∧
    decide (toggleAllQuickPicks state cbs = ToggleOutcome.noAction) = false ∧
    toggleAllQuickPicks state [] = ToggleOutcome.indexError ∧
    toggleAllQuickPicks state (c :: rest) =
      ToggleOutcome.clicks ((if c.selected then 0 else 1) + (if state then 0 else 1)) := by
  refine ⟨by simp, ?_, by simp [toggleAllQuickPicks], by simp [toggleAllQuickPicks]⟩
  cases cbs <;> simp [toggleAllQuickPicks]

/-- Claim C5: NewScmView.getProviders resolves to [] when no SCM input field
    is present; to exactly one SingleScmProvider when exactly one input field
    is present and no multi-provider container exists; and otherwise to one
    MultiScmProvider per multi-provider item, in DOM order. -/
theorem getProviders_spec (dom : ScmViewDom) :
    (dom.inputFields = [] → NewScmView.getProviders dom = []) ∧
    (dom.inputFields.length = 1 → dom.multiScmProviders = [] →
      NewScmView.getProviders dom =
        [ScmProviderModel.single dom.singleScmProvider]) ∧
    (dom.inputFields ≠ [] →
      (dom.inputFields.length ≠ 1 ∨ dom.multiScmProviders ≠ []) →
      NewScmView.getProviders dom =
        dom.multiProviderItems.map ScmProviderModel.multi) := by
  refine ⟨?_, ?_, ?_⟩
  · intro h
    simp [NewScmView.getProviders, h]
  · intro h1 h2
    have hl : ¬ dom.inputFields.length < 1 := by omega
    simp [NewScmView.getProviders, hl, h1, h2]
  · intro h1 h2
    have hl : ¬ dom.inputFields.length < 1 := by
      cases hf : dom.inputFields with
      | nil => exact absurd hf h1
      | cons a l => simp [hf]
    have hc : ¬ (dom.inputFields.length = 1 ∧ dom.multiScmProviders.length < 1) := by
      rintro ⟨ha, hb⟩
      rcases h2 with h2 | h2
      · exact h2 ha
      · exact h2 (List.length_eq_zero.mp (by omega))
    unfold NewScmView.getProviders
    rw [if_neg hl, if_neg hc]

/-- Witness for C5: the three branches at concrete SCM view DOM states. -/
theorem getProviders_witness :
    NewScmView.getProviders scmDomEmpty = [] ∧
    NewScmView.getProviders scmDomSingle = [ScmProviderModel.single 42] ∧
    NewScmView.getProviders scmDomMulti =
      [ScmProviderModel.multi 30, ScmProviderModel.multi 31] := by
  refine ⟨(getProviders_spec scmDomEmpty).1 rfl, ?_, ?_⟩
  · exact (getProviders_spec scmDomSingle).2.1 rfl rfl
  · exact (getProviders_spec scmDomMulti).2.2 (by decide) (Or.inl (by decide))

/-- Claim C3: when the queried element is missing the affected operations
    resolve to a benign default instead of raising: QuickPickItem.
    getDescription resolves to undefined when the description element cannot
    be read (and to the text when it can), and Input.back resolves to false
    when the title bar is absent or not displayed, or when no enabled back
    button exists under it. -/
theorem benign_default_spec (bars : List TitleBarElem) :
    (∀ e, QuickPickItem.getDescription (Except.error e) = none) ∧
    (∀ s, QuickPickItem.getDescription (Except.ok s) = some s) ∧
    ((bars = [] ∨
      ∀ tb ∈ bars.head?, (tb.displayed = false ∨ ∀ b ∈ tb.backButtons, b.enabled = false)) →
      Input.back bars = false) := by
  refine ⟨fun e => rfl, fun s => rfl, ?_⟩
  intro h
  cases bars with
  | nil => rfl
  | cons tb rest =>
    rcases h with h | h
    · exact absurd h (by simp)
    · have htb := h tb (Option.mem_def.mpr rfl)
      rcases htb with hd | hb
      · simp [Input.back, hd]
      · cases hbl : tb.backButtons with
        | nil => simp [Input.back, hbl]
        | cons b bs =>
          have := hb b (by rw [hbl]; exact List.mem_cons_self b bs)
          simp [Input.back, hbl, this]

/-- Witness for C3: concrete missing-element states resolve to the defaults. -/
theorem benign_default_witness :
    Input.back [] = false ∧
    Input.back [TitleBarElem.mk false []] = false ∧
    Input.back [TitleBarElem.mk true [BackButton.mk false]] = false ∧
    QuickPickItem.getDescription (Except.error DriverError.noSuchElement) = none := by
  refine ⟨(benign_default_spec []).2.2 (Or.inl rfl), ?_, ?_, (benign_default_spec []).1 DriverError.noSuchElement⟩
  · refine (benign_default_spec [TitleBarElem.mk false []]).2.2 (Or.inr ?_)
    intro tb htb
    have h2 : TitleBarElem.mk false [] = tb := by simpa using (Option.mem_def.mp htb)
    subst h2
    exact Or.inl rfl
  · refine (benign_default_spec [TitleBarElem.mk true [BackButton.mk false]]).2.2 (Or.inr ?_)
    intro tb htb
    have h2 : TitleBarElem.mk true [BackButton.mk false] = tb := by
      simpa using (Option.mem_def.mp htb)
    subst h2
    refine Or.inr ?_
    intro b hb
    have : b = BackButton.mk false := by simpa using hb
    rw [this]

/-- Case analysis for the JavaScript findIndex model: either no element
    passes the test and the result is -1, or the list splits around the first
    passing element and the result is the start offset plus its position. -/
theorem findIndexFrom_cases (p : Button → Bool) :
    ∀ (l : List Button) (s : Nat),
      (findIndexFrom p l s = -1 ∧ ∀ b ∈ l, p b = false) ∨
      (∃ pre b post, l = pre ++ b :: post ∧ p b = true ∧ (∀ x ∈ pre, p x = false) ∧
        findIndexFrom p l s = (s : Int) + pre.length) := by
  intro l
  induction l with
  | nil => intro s; exact Or.inl ⟨rfl, by simp⟩
  | cons b rest ih =>
    intro s
    cases hp : p b with
    | true =>
      refine Or.inr ⟨[], b, rest, rfl, hp, by simp, ?_⟩
      simp [findIndexFrom, hp]
    | false =>
      rcases ih (s + 1) with ⟨h1, h2⟩ | ⟨pre, x, post, heq, hx, hpre, hidx⟩
      · refine Or.inl ⟨?_, ?_⟩
        · simp [findIndexFrom, hp, h1]
        · intro y hy
          rcases List.mem_cons.mp hy with rfl | hy
          · exact hp
          · exact h2 y hy
      · refine Or.inr ⟨b :: pre, x, post, by rw [heq]; rfl, hx, ?_, ?_⟩
        · intro y hy
          rcases List.mem_cons.mp hy with rfl | hy
          · exact hp
          · exact hpre y hy
        · rw [show findIndexFrom p (b :: rest) s = findIndexFrom p rest (s + 1) by
            simp [findIndexFrom, hp]]
          rw [hidx]
          simp [List.length_cons]
          omega

/-- Claim C7: ModalDialog.pushButton clicks exactly the first button in DOM
    order whose title attribute equals the given title (everything before it
    has a different title and the button at the returned index carries the
    requested title), and performs no click, raising no error, when no
    button's title equals it. -/
theorem pushButton_spec (title : String) (buttons : List Button) :
    (pushButton title buttons = none ↔ ∀ b ∈ buttons, b.title ≠ title) ∧
    (∀ i, pushButton title buttons = some i →
      (buttons.drop i).head?.map Button.title = some title ∧
      ∀ x ∈ buttons.take i, x.title ≠ title) := by
  have hcases := findIndexFrom_cases (fun b => decide (b.title = title)) buttons 0
  constructor
  · constructor
    · intro hnone
      rcases hcases with ⟨h1, h2⟩ | ⟨pre, b, post, heq, hb, hpre, hidx⟩
      · intro b hb
        have := h2 b hb
        simpa using this
      · exfalso
        unfold pushButton at hnone
        rw [hidx] at hnone
        simp at hnone
        omega
    · intro hall
      rcases hcases with ⟨h1, _⟩ | ⟨pre, b, post, heq, hb, _, _⟩
      · unfold pushButton
        rw [h1]
        simp
      · exfalso
        have : b ∈ buttons := by rw [heq]; exact List.mem_append_right pre (List.mem_cons_self b post)
        exact hall b this (by simpa using hb)
  · intro i hsome
    rcases hcases with ⟨h1, _⟩ | ⟨pre, b, post, heq, hb, hpre, hidx⟩
    · exfalso
      unfold pushButton at hsome
      rw [h1] at hsome
      simp at hsome
    · unfold pushButton at hsome
      rw [hidx] at hsome
      simp at hsome
      have hi : i = pre.length := by omega
      subst hi
      constructor
      · rw [heq, List.drop_left]
        simpa using hb
      · rw [heq, List.take_left]
        intro x hx
        simpa using hpre x hx

/-- Witness for C7: a concrete miss resolves to no click, and a concrete hit
    clicks the button whose title matches. -/
theorem pushButton_witness :
    pushButton "OK" [Button.mk "Cancel"] = none ∧
    ([Button.mk "Cancel", Button.mk "OK"].drop 1).head?.map Button.title = some "OK" := by
  refine ⟨(pushButton_spec "OK" [Button.mk "Cancel"]).1.mpr (by decide), ?_⟩
  exact ((pushButton_spec "OK" [Button.mk "Cancel", Button.mk "OK"]).2 1 (by decide)).1

/-- Counterexample for C4: QuickPickItem.getIndex returns a value cached at
    construction time.  Across a DOM mutation that changes every rendered
    label (getLabel, re-derived, observes the change) getIndex still returns
    the index stored by the constructor, so not all state is re-derived from
    the live DOM on each call. -/
theorem quickpick_cached_index_counterexample :
    QuickPickItem.getLabel (QuickPickItemState.mk 3) qpItemDomOld = "old-label" ∧
    QuickPickItem.getLabel (QuickPickItemState.mk 3) qpItemDomNew = "new-label" ∧
    QuickPickItem.getIndex (QuickPickItemState.mk 3) qpItemDomOld = 3 ∧
    QuickPickItem.getIndex (QuickPickItemState.mk 3) qpItemDomNew = 3 :=
  ⟨rfl, rfl, rfl, rfl⟩

/-- Claim C4 as amended: every DOM-reading method of the QuickPickItem wrapper
    (getLabel, getDescription) re-derives its result from the live DOM on each
    call, but QuickPickItem.getIndex returns the index stored at construction
    time and is insensitive to the DOM state at call time. -/
theorem quickpick_state_sources_spec (st : QuickPickItemState) (d1 d2 : QuickPickItemDom) :
    QuickPickItem.getIndex st d1 = st.index ∧
    QuickPickItem.getIndex st d1 = QuickPickItem.getIndex st d2 ∧
    QuickPickItem.getLabel st d1 = d1.labelAt st.index ∧
    (d1.labelAt st.index = d2.labelAt st.index →
      QuickPickItem.getLabel st d1 = QuickPickItem.getLabel st d2) ∧
    QuickPickItem.getDescriptionFromDom st d1 =
      QuickPickItem.getDescription (d1.descriptionAt st.index) :=
  ⟨rfl, rfl, rfl, fun h => h, rfl⟩

/-- Witness for C4's amended claim at concrete wrappers and DOM states. -/
theorem quickpick_state_sources_witness :
    QuickPickItem.getIndex (QuickPickItemState.mk 2) qpItemDomNew = 2 ∧
    QuickPickItem.getLabel (QuickPickItemState.mk 2) qpItemDomOld =
      QuickPickItem.getLabel (QuickPickItemState.mk 2) qpItemDomOld2 := by
  refine ⟨(quickpick_state_sources_spec (QuickPickItemState.mk 2) qpItemDomNew qpItemDomOld).1, ?_⟩
  exact (quickpick_state_sources_spec
    (QuickPickItemState.mk 2) qpItemDomOld qpItemDomOld2).2.2.2.1 rfl

/-- The sequential for-of idiom keeps at most one round-trip in flight. -/
theorem seqFrom_forLoopTrace (k : Nat) : seqFrom 0 (forLoopTrace k) = true := by
  induction k with
  | zero => rfl
  | succ k ih => simp [forLoopTrace, seqFrom, inFlightStep, ih]

/-- Folding the in-flight counter over a batch of k dispatches adds k. -/
theorem foldl_issuesOf (k : Nat) : ∀ n : Nat, (issuesOf k).foldl inFlightStep n = n + k := by
  induction k with
  | zero => intro n; rfl
  | succ k ih =>
    intro n
    rw [show (issuesOf (k + 1)).foldl inFlightStep n = (issuesOf k).foldl inFlightStep (n + 1) from rfl]
    rw [ih (n + 1)]
    omega

/-- Counterexample for C8: the Promise.all attribute-read phase of
    MultiScmProvider.takeAction with two action elements dispatches the second
    getAttribute round-trip before the first completes, so two DOM queries are
    in flight at the same time. -/
theorem takeAction_concurrent_counterexample :
    sequentialDispatch (MultiScmProvider.takeActionTrace 2) = false ∧
    inFlightAfter (issuesOf 2) = 2 := by decide

/-- Claim C8 as amended: for-of loops await each driver round-trip before the
    next, keeping at most one in flight, but the methods that batch attribute
    reads with Promise.all over an element list (MultiScmProvider.takeAction,
    ModalDialog.pushButton) dispatch one round-trip per element before
    awaiting any, so with two or more elements their dispatch is not
    sequential and the whole batch is in flight at once. -/
theorem driver_dispatch_spec (k : Nat) :
    sequentialDispatch (forLoopTrace k) = true ∧
    inFlightAfter (issuesOf k) = k ∧
    (2 ≤ k → sequentialDispatch (MultiScmProvider.takeActionTrace k) = false) ∧
    (2 ≤ k → sequentialDispatch (ModalDialog.pushButtonTrace k) = false) := by
  refine ⟨seqFrom_forLoopTrace k, ?_, ?_, ?_⟩
  · unfold inFlightAfter
    rw [foldl_issuesOf k 0]
    omega
  · intro hk
    obtain ⟨j, rfl⟩ : ∃ j, k = j + 2 := ⟨k - 2, by omega⟩
    simp [MultiScmProvider.takeActionTrace, issuesOf, sequentialDispatch, seqFrom, inFlightStep]
  · intro hk
    obtain ⟨j, rfl⟩ : ∃ j, k = j + 2 := ⟨k - 2, by omega⟩
    simp [ModalDialog.pushButtonTrace, issuesOf, sequentialDispatch, seqFrom, inFlightStep]

/-- Witness for C8's amended claim at concrete batch sizes. -/
theorem driver_dispatch_witness :
    sequentialDispatch (forLoopTrace 3) = true ∧
    sequentialDispatch (MultiScmProvider.takeActionTrace 2) = false ∧
    sequentialDispatch (ModalDialog.pushButtonTrace 2) = false := by
  refine ⟨(driver_dispatch_spec 3).1, ?_, ?_⟩
  · exact (driver_dispatch_spec 2).2.2.1 (by decide)
  · exact (driver_dispatch_spec 2).2.2.2 (by decide)

/-- Claim C2: for both getChanges variants, with a positive change count a row
    is in the result exactly when it is a rendered row at the child level
    (header aria-level + 1) whose data-index i satisfies startIndex < i and
    i ≤ startIndex + count, where startIndex is the data-index of the header
    row the method uses (for the multi-provider variant, the header its
    selection loop settled on); with change count zero the result is empty. -/
theorem getChanges_window_spec (count : Int) (header : TreeRow) (rows : List TreeRow)
    (providerIndex : Int) (headers : List TreeRow) :
    (0 < count →
      (∀ r : TreeRow, r ∈ SingleScmProvider.getChanges count header rows ↔
        (r ∈ rows ∧ r.ariaLevel = header.ariaLevel + 1 ∧
         header.dataIndex < r.dataIndex ∧ r.dataIndex ≤ header.dataIndex + count)) ∧
      (∀ hd : TreeRow, lastAboveAux providerIndex none headers = some hd →
        ∀ r : TreeRow, r ∈ MultiScmProvider.getChanges count providerIndex headers rows ↔
          (r ∈ rows ∧ r.ariaLevel = hd.ariaLevel + 1 ∧
           hd.dataIndex < r.dataIndex ∧ r.dataIndex ≤ hd.dataIndex + count))) ∧
    (count = 0 →
      SingleScmProvider.getChanges count header rows = [] ∧
      MultiScmProvider.getChanges count providerIndex headers rows = []) := by
  constructor
  · intro hc
    constructor
    · intro r
      simp only [SingleScmProvider.getChanges, if_pos (show count > 0 from hc), itemLevel,
        List.mem_filter, Bool.and_eq_true, decide_eq_true_eq]
      tauto
    · intro hd hhd r
      simp only [MultiScmProvider.getChanges, if_pos (show count > 0 from hc), hhd, itemLevel,
        List.mem_filter, Bool.and_eq_true, decide_eq_true_eq]
      tauto
  · intro hc
    subst hc
    constructor
    · simp [SingleScmProvider.getChanges]
    · simp [MultiScmProvider.getChanges]

/-- Witness for C2: a concrete row inside the window is a change of both
    provider variants, and with change count zero both resolve to []. -/
theorem getChanges_window_witness :
    TreeRow.mk 6 3 ∈ SingleScmProvider.getChanges 1 scmHeaderW scmRowsW ∧
    TreeRow.mk 6 3 ∈ MultiScmProvider.getChanges 1 0 [scmHeaderW] scmRowsW ∧
    SingleScmProvider.getChanges 0 scmHeaderW scmRowsW = [] := by
  have h := (getChanges_window_spec 1 scmHeaderW scmRowsW 0 [scmHeaderW]).1 (by decide)
  refine ⟨(h.1 (TreeRow.mk 6 3)).mpr (by decide),
    (h.2 scmHeaderW (by decide) (TreeRow.mk 6 3)).mpr (by decide), ?_⟩
  exact ((getChanges_window_spec 0 scmHeaderW scmRowsW 0 [scmHeaderW]).2 rfl).1

/-- The pick returned by the for-loop over one page is the first match in DOM
    order, regardless of the sentinel flag and of the endReached accumulator. -/
theorem scanPicksGo_snd (key : SearchKey) (picks : List QuickPick) :
    ∀ (lastRow e : Bool),
      (scanPicksGo key lastRow e picks).snd = picks.find? (pickMatches key) := by
  induction picks with
  | nil => intro lastRow e; rfl
  | cons p rest ih =>
    intro lastRow e
    cases hp : pickMatches key p with
    | true => simp [scanPicksGo, hp, List.find?_cons_of_pos _ hp]
    | false =>
      simp only [scanPicksGo, hp]
      rw [List.find?_cons_of_neg _ (by simp [hp])]
      exact ih lastRow _

/-- Once the endReached accumulator is true it stays true. -/
theorem pageEndFold_true (lastRow : Bool) (picks : List QuickPick) :
    pageEndFold lastRow true picks = true := by
  induction picks with
  | nil => rfl
  | cons p rest ih => simpa [pageEndFold] using ih

/-- When no pick matches, the for-loop runs to the end of the page and its
    endReached flag is the accumulator fold. -/
theorem scanPicksGo_fst (key : SearchKey) (picks : List QuickPick) :
    ∀ (lastRow e : Bool), picks.find? (pickMatches key) = none →
      (scanPicksGo key lastRow e picks).fst = pageEndFold lastRow e picks := by
  induction picks with
  | nil => intro lastRow e _; rfl
  | cons p rest ih =>
    intro lastRow e h
    have hp : pickMatches key p = false := by
      cases hx : pickMatches key p with
      | true => rw [List.find?_cons_of_pos _ hx] at h; exact absurd h (by simp)
      | false => rfl
    have hrest : rest.find? (pickMatches key) = none := by
      rwa [List.find?_cons_of_neg _ (by simp [hp])] at h
    simp only [scanPicksGo, pageEndFold, hp]
    exact ih lastRow _ hrest

/-- The endReached accumulator started at false, in closed form: some pick was
    scanned, and the sentinel was present or some pick's aria-posinset equals
    its aria-setsize. -/
theorem pageEndFold_false (picks : List QuickPick) :
    ∀ lastRow : Bool,
      pageEndFold lastRow false picks =
        (!picks.isEmpty &&
          (lastRow || picks.any (fun p => decide (p.posinset = p.setsize)))) := by
  induction picks with
  | nil => intro lastRow; simp [pageEndFold]
  | cons p rest ih =>
    intro lastRow
    cases lastRow with
    | true => simp [pageEndFold, pageEndFold_true]
    | false =>
      cases hq : decide (p.posinset = p.setsize) with
      | true => simp [pageEndFold, hq, pageEndFold_true]
      | false =>
        have hstep : pageEndFold false false (p :: rest) = pageEndFold false false rest := by
          simp [pageEndFold, hq]
        rw [hstep, ih false]
        simp [List.any_cons, hq]
        cases rest <;> simp

/-- One unfolding of the while-loop, phrased through the page outcome: return
    on a match or on end-of-list, otherwise press PageDown (counted) and
    continue on the next page. -/
theorem findQuickPickLoop_succ (dom : Nat → QuickPickPage) (key : SearchKey)
    (fuel p : Nat) :
    findQuickPickLoop dom key (fuel + 1) p =
      match pageOutcome key (dom p) with
      | some r => some (r, 0)
      | none =>
        match findQuickPickLoop dom key fuel (p + 1) with
        | none => none
        | some (res, presses) => some (res, presses + 1) := by
  have hsnd := scanPicksGo_snd key (dom p).picks (dom p).lastRowPresent false
  cases hf : (dom p).picks.find? (pickMatches key) with
  | some pick =>
    rw [hf] at hsnd
    simp [findQuickPickLoop, pageOutcome, hf, hsnd]
  | none =>
    rw [hf] at hsnd
    have hfst := scanPicksGo_fst key (dom p).picks (dom p).lastRowPresent false hf
    rw [pageEndFold_false] at hfst
    cases he : pageEndReached (dom p) with
    | true =>
      rw [show (!(dom p).picks.isEmpty &&
          ((dom p).lastRowPresent ||
            (dom p).picks.any (fun q => decide (q.posinset = q.setsize)))) =
          pageEndReached (dom p) from rfl, he] at hfst
      simp [findQuickPickLoop, pageOutcome, hf, hsnd, hfst, he]
    | false =>
      rw [show (!(dom p).picks.isEmpty &&
          ((dom p).lastRowPresent ||
            (dom p).picks.any (fun q => decide (q.posinset = q.setsize)))) =
          pageEndReached (dom p) from rfl, he] at hfst
      simp [findQuickPickLoop, pageOutcome, hf, hsnd, hfst, he]

/-- Soundness of the modelled while-loop from any start page: on termination,
    every earlier page had no match and no end-of-list (so exactly one
    PageDown was pressed there), and the final page's outcome is the result;
    fuel exhaustion happens exactly when every inspected page continues. -/
theorem findQuickPickLoop_sound (dom : Nat → QuickPickPage) (key : SearchKey) :
    ∀ (fuel p : Nat),
      (∀ res presses, findQuickPickLoop dom key fuel p = some (res, presses) →
        presses < fuel ∧
        (∀ i, i < presses → pageOutcome key (dom (p + i)) = none) ∧
        pageOutcome key (dom (p + presses)) = some res) ∧
      (findQuickPickLoop dom key fuel p = none ↔
        ∀ i, i < fuel → pageOutcome key (dom (p + i)) = none) := by
  intro fuel
  induction fuel with
  | zero =>
    intro p
    constructor
    · intro res presses h
      exact absurd h (by simp [findQuickPickLoop])
    · constructor
      · intro _ i hi
        exact absurd hi (Nat.not_lt_zero i)
      · intro _
        rfl
  | succ fuel ih =>
    intro p
    have hb := findQuickPickLoop_succ dom key fuel p
    cases ho : pageOutcome key (dom p) with
    | some r =>
      rw [ho] at hb
      constructor
      · intro res presses h
        rw [hb] at h
        simp only [Option.some.injEq, Prod.mk.injEq] at h
        obtain ⟨rfl, rfl⟩ := h
        refine ⟨Nat.succ_pos fuel, ?_, ?_⟩
        · intro i hi
          exact absurd hi (Nat.not_lt_zero i)
        · simpa using ho
      · rw [hb]
        constructor
        · intro h
          exact Option.noConfusion h
        · intro hall
          exfalso
          have h0 := hall 0 (Nat.succ_pos fuel)
          rw [Nat.add_zero, ho] at h0
          exact Option.noConfusion h0
    | none =>
      rw [ho] at hb
      cases hin : findQuickPickLoop dom key fuel (p + 1) with
      | none =>
        rw [hin] at hb
        constructor
        · intro res presses h
          rw [hb] at h
          exact Option.noConfusion h
        · rw [hb]
          constructor
          · intro _ i hi
            cases i with
            | zero => simpa using ho
            | succ j =>
              have hj : j < fuel := by omega
              have hout := ((ih (p + 1)).2.mp hin) j hj
              rw [show p + (j + 1) = p + 1 + j by omega]
              exact hout
          · intro _
            rfl
      | some pr =>
        obtain ⟨r, n⟩ := pr
        rw [hin] at hb
        obtain ⟨hn, hmid, hlast⟩ := (ih (p + 1)).1 r n hin
        constructor
        · intro res presses h
          rw [hb] at h
          simp only [Option.some.injEq, Prod.mk.injEq] at h
          obtain ⟨rfl, rfl⟩ := h
          refine ⟨by omega, ?_, ?_⟩
          · intro i hi
            cases i with
            | zero => simpa using ho
            | succ j =>
              have hj : j < n := by omega
              have hout := hmid j hj
              rw [show p + (j + 1) = p + 1 + j by omega]
              exact hout
          · rw [show p + (n + 1) = p + 1 + n by omega]
            exact hlast
        · rw [hb]
          constructor
          · intro h
            exact Option.noConfusion h
          · intro hall
            exfalso
            have h0 := hall (n + 1) (by omega)
            rw [show p + (n + 1) = p + 1 + n by omega, hlast] at h0
            exact Option.noConfusion h0

/-- Claim C1: the modelled Input.findQuickPick loop is a linear scan over the
    rendered pages.  When it finishes after `presses` PageDown presses, every
    earlier iteration found no match and had not reached the end (its page had
    no sentinel last-row element in the DOM and no scanned item whose
    aria-posinset equals its aria-setsize), and exactly one PageDown was
    pressed per such iteration and never on the final one; the final
    iteration's page either yields the first matching pick, or — when the end
    was reached without a match — the loop resolves to undefined (res = none
    forces no match and the end condition on the final page).  The loop fails
    to finish within its fuel exactly when every inspected page has no match
    and no end condition, so it terminates exactly at the first page with a
    match or an end-of-list marker. -/
theorem findQuickPick_scan_spec (dom : Nat → QuickPickPage) (key : SearchKey) (fuel : Nat) :
    (∀ res presses, findQuickPickLoop dom key fuel 0 = some (res, presses) →
      presses < fuel ∧
      (∀ i, i < presses → pageOutcome key (dom i) = none) ∧
      pageOutcome key (dom presses) = some res ∧
      (res = none →
        (dom presses).picks.find? (pickMatches key) = none ∧
        pageEndReached (dom presses) = true) ∧
      (∀ pick, res = some pick →
        (dom presses).picks.find? (pickMatches key) = some pick)) ∧
    (findQuickPickLoop dom key fuel 0 = none ↔
      ∀ i, i < fuel → pageOutcome key (dom i) = none) := by
  have h := findQuickPickLoop_sound dom key fuel 0
  constructor
  · intro res presses hsome
    obtain ⟨h1, h2, h3⟩ := h.1 res presses hsome
    rw [Nat.zero_add] at h3
    refine ⟨h1, ?_, h3, ?_, ?_⟩
    · intro i hi
      have := h2 i hi
      rwa [Nat.zero_add] at this
    · intro hres
      subst hres
      have hf : (dom presses).picks.find? (pickMatches key) = none := by
        cases hff : (dom presses).picks.find? (pickMatches key) with
        | none => rfl
        | some pick => simp [pageOutcome, hff] at h3
      have he : pageEndReached (dom presses) = true := by
        cases hx : pageEndReached (dom presses) with
        | true => rfl
        | false => simp [pageOutcome, hf, hx] at h3
      exact ⟨hf, he⟩
    · intro pick hres
      subst hres
      cases hff : (dom presses).picks.find? (pickMatches key) with
      | some q =>
        have hq : q = pick := by simpa [pageOutcome, hff] using h3
        rw [hq]
      | none =>
        exfalso
        cases hx : pageEndReached (dom presses) with
        | true => simp [pageOutcome, hff, hx] at h3
        | false => simp [pageOutcome, hff, hx] at h3
  · constructor
    · intro hn i hi
      have := h.2.mp hn i hi
      rwa [Nat.zero_add] at this
    · intro hall
      refine h.2.mpr ?_
      intro i hi
      rw [Nat.zero_add]
      exact hall i hi

/-- Witness for C1: on a concrete two-page DOM searching for index 7, the loop
    finishes after one PageDown; the first page continues (no match, end not
    reached) and the second page returns the matching pick. -/
theorem findQuickPick_scan_witness :
    pageOutcome (SearchKey.byIndex 7) (qpDomW 0) = none ∧
    pageOutcome (SearchKey.byIndex 7) (qpDomW 1) = some (some qpPickB) ∧
    (qpDomW 1).picks.find? (pickMatches (SearchKey.byIndex 7)) = some qpPickB := by
  have h := (findQuickPick_scan_spec qpDomW (SearchKey.byIndex 7) 5).1 (some qpPickB) 1
    (by decide)
  exact ⟨h.2.1 0 (by decide), h.2.2.1, h.2.2.2.2 qpPickB rfl⟩

end WdioVSCode
